import Mathlib

/-
Verification development for the adaptive-filter EKF node
(src/src/EKFAdaptiveFilter.cpp).  Doubles are modelled as real numbers,
Eigen vectors as functions out of Fin n, Eigen matrices as Mathlib
matrices.  Each definition is a direct transcription of the C++ member
function with the same name.
-/

open Real Matrix

noncomputable section

namespace AdaptiveFilter

/-! ## Constants fixed in initialization() -/

def nCorner : ℝ := 500.0
def nSurf : ℝ := 5000
def Gz : ℝ := 0.0048
def Gx : ℝ := 0.0022
def Gy : ℝ := 0.0016
def Gpsi : ℝ := 0.0044
def Gphi : ℝ := 0.0052
def Gtheta : ℝ := 0.005
def l_min : ℝ := 0.005

/-! ## Angle utilities

Semantics of the Eigen expressions used by the node:
Eigen.AngleAxisd(t, UnitX/Y/Z) as the standard basis rotation matrices,
and C atan2(y, x) as the argument of the complex number x + y i
(range (-pi, pi], agreeing with atan2 away from the ray x<0, y=-0). -/

def Rx (t : ℝ) : Matrix (Fin 3) (Fin 3) ℝ :=
  !![1, 0, 0; 0, Real.cos t, -Real.sin t; 0, Real.sin t, Real.cos t]

def Ry (t : ℝ) : Matrix (Fin 3) (Fin 3) ℝ :=
  !![Real.cos t, 0, Real.sin t; 0, 1, 0; -Real.sin t, 0, Real.cos t]

def Rz (t : ℝ) : Matrix (Fin 3) (Fin 3) ℝ :=
  !![Real.cos t, -Real.sin t, 0; Real.sin t, Real.cos t, 0; 0, 0, 1]

def atan2 (y x : ℝ) : ℝ := Complex.arg (x + y * Complex.I)

/-- The expression atan2(sin(d), cos(d)) used for every angle difference. -/
def wrapDiff (d : ℝ) : ℝ := atan2 (Real.sin d) (Real.cos d)

/-- The 3x3 matrix J written literally in f_prediction_model and
indirect_lidar_measurement (the Euler-rate Jacobian, body angular rate to
Euler-angle rate, for the Z*Y*X convention). -/
def eulerRateJ (phi th : ℝ) : Matrix (Fin 3) (Fin 3) ℝ :=
  !![1, Real.sin phi * Real.tan th, Real.cos phi * Real.tan th;
     0, Real.cos phi, -Real.sin phi;
     0, Real.sin phi / Real.cos th, Real.cos phi / Real.cos th]

/-! ## Index helpers for 12- and 6-vectors -/

def lo6 (i : Fin 6) : Fin 12 := ⟨i, by omega⟩
def hi6 (i : Fin 6) : Fin 12 := ⟨i + 6, by omega⟩

/-- A 6x6 matrix assembled from a 3x3 block at (0,0) and a 3x3 block at
(3,3), zero elsewhere (the A matrices of the two models). -/
def blockDiag6 (B C : Matrix (Fin 3) (Fin 3) ℝ) : Matrix (Fin 6) (Fin 6) ℝ :=
  fun i j =>
    if hi : (i : ℕ) < 3 then
      (if hj : (j : ℕ) < 3 then B ⟨i, hi⟩ ⟨j, hj⟩ else 0)
    else
      (if hj : (j : ℕ) < 3 then 0
       else C ⟨(i : ℕ) - 3, by omega⟩ ⟨(j : ℕ) - 3, by omega⟩)

/-! ## Models -/

/-- The matrix A of f_prediction_model: identity-sized 6x6 with the
rotation R = Rz*Ry*Rx in the position block and J in the angle block. -/
def predictionA (x : Fin 12 → ℝ) : Matrix (Fin 6) (Fin 6) ℝ :=
  blockDiag6 (Rz (x 5) * Ry (x 4) * Rx (x 3)) (eulerRateJ (x 3) (x 4))

/-- VectorXd f_prediction_model(VectorXd x, double dt):
xp[0:6] = x[0:6] + A*x[6:12]*dt, xp[6:12] = x[6:12]. -/
def f_prediction_model (x : Fin 12 → ℝ) (dt : ℝ) : Fin 12 → ℝ :=
  fun k =>
    if h : (k : ℕ) < 6 then
      x k + (∑ j : Fin 6, predictionA x ⟨k, h⟩ j * x (hi6 j)) * dt
    else
      x k

/-- VectorXd indirect_lidar_measurement(VectorXd u, VectorXd ul, double dt):
position difference rotated by R(ul)^T, wrapped angle difference mapped
through J(ul)^{-1}, everything divided by dt. -/
def indirect_lidar_measurement (u ul : Fin 6 → ℝ) (dt : ℝ) : Fin 6 → ℝ :=
  let R := Rz (ul 5) * Ry (ul 4) * Rx (ul 3)
  let J := eulerRateJ (ul 3) (ul 4)
  let u_diff : Fin 6 → ℝ := fun k =>
    if (k : ℕ) < 3 then u k - ul k else wrapDiff (u k - ul k)
  let A := blockDiag6 Rᵀ J⁻¹
  fun i => (∑ j : Fin 6, A i j * u_diff j) / dt

/-- MatrixXd adaptive_covariance(double fCorner, double fSurf).
lidarG is the global gain read from the node parameters. -/
def adaptive_covariance (lidarG fCorner fSurf : ℝ) : Matrix (Fin 6) (Fin 6) ℝ :=
  let cov_x := (nCorner - min fCorner nCorner) / nCorner + l_min
  let cov_y := (nCorner - min fCorner nCorner) / nCorner + l_min
  let cov_psi := (nCorner - min fCorner nCorner) / nCorner + l_min
  let cov_z := (nSurf - min fSurf nSurf) / nSurf + l_min
  let cov_phi := (nSurf - min fSurf nSurf) / nSurf + l_min
  let cov_theta := (nSurf - min fSurf nSurf) / nSurf + l_min
  let b := lidarG / 1.0
  let c := lidarG / 1.0
  Matrix.diagonal fun i =>
    if i = 0 then b * Gx * cov_x
    else if i = 1 then c * Gy * cov_y
    else if i = 2 then b * Gz * cov_z
    else if i = 3 then c * Gphi * cov_phi
    else if i = 4 then b * Gtheta * cov_theta
    else c * Gpsi * cov_psi

/-! ## Numeric Jacobians (forward differences with sin-wrapped angle rows) -/

/-- MatrixXd jacobian_state(VectorXd x, double dt): forward difference of
f_prediction_model with step 1e-4; rows 3,4,5 use sin(f1-f0)/delta. -/
def jacobian_state (x : Fin 12 → ℝ) (dt : ℝ) : Matrix (Fin 12) (Fin 12) ℝ :=
  let f0 := f_prediction_model x dt
  let delta : ℝ := 0.0001
  fun i j =>
    let f1 := f_prediction_model (Function.update x j (x j + delta)) dt
    if (i : ℕ) = 3 ∨ (i : ℕ) = 4 ∨ (i : ℕ) = 5 then
      Real.sin (f1 i - f0 i) / delta
    else
      (f1 i - f0 i) / delta

/-- MatrixXd jacobian_lidar_measurement(u, ul, dt): forward difference of
indirect_lidar_measurement in its first argument, step 1e-7. -/
def jacobian_lidar_measurement (u ul : Fin 6 → ℝ) (dt : ℝ) :
    Matrix (Fin 6) (Fin 6) ℝ :=
  let f0 := indirect_lidar_measurement u ul dt
  let delta : ℝ := 0.0000001
  fun i j =>
    let f1 := indirect_lidar_measurement (Function.update u j (u j + delta)) ul dt
    if (i : ℕ) = 3 ∨ (i : ℕ) = 4 ∨ (i : ℕ) = 5 then
      Real.sin (f1 i - f0 i) / delta
    else
      (f1 i - f0 i) / delta

/-- MatrixXd jacobian_lidar_measurementL(u, ul, dt): forward difference of
indirect_lidar_measurement in its second argument, step 1e-7. -/
def jacobian_lidar_measurementL (u ul : Fin 6 → ℝ) (dt : ℝ) :
    Matrix (Fin 6) (Fin 6) ℝ :=
  let f0 := indirect_lidar_measurement u ul dt
  let delta : ℝ := 0.0000001
  fun i j =>
    let f1 := indirect_lidar_measurement u (Function.update ul j (ul j + delta)) dt
    if (i : ℕ) = 3 ∨ (i : ℕ) = 4 ∨ (i : ℕ) = 5 then
      Real.sin (f1 i - f0 i) / delta
    else
      (f1 i - f0 i) / delta

/-! ## Prediction -/

/-- E_pred as fixed by initialization(): zero except 0.01*0.1 = 0.001 on
the velocity-block diagonal (indices 6..11); never modified afterwards. -/
def E_pred : Matrix (Fin 12) (Fin 12) ℝ :=
  fun i j => if i = j ∧ 6 ≤ (i : ℕ) then 0.001 else 0

/-- void prediction_stage(double dt), as a pure map on (X, P). -/
def prediction_stage (X : Fin 12 → ℝ) (P : Matrix (Fin 12) (Fin 12) ℝ)
    (dt : ℝ) : (Fin 12 → ℝ) × Matrix (Fin 12) (Fin 12) ℝ :=
  let F := jacobian_state X dt
  (f_prediction_model X dt, F * P * Fᵀ + E_pred)

/-! ## Filter node state -/

/-- The mutable members of the AdaptiveFilter node that the estimator
reads and writes (measures, covariances, state, times, flags). -/
structure AF where
  X : Fin 12 → ℝ
  P : Matrix (Fin 12) (Fin 12) ℝ
  imuMeasure : Fin 9 → ℝ
  wheelMeasure : Fin 2 → ℝ
  lidarMeasure : Fin 6 → ℝ
  lidarMeasureL : Fin 6 → ℝ
  E_imu : Matrix (Fin 9) (Fin 9) ℝ
  E_wheel : Matrix (Fin 2) (Fin 2) ℝ
  E_lidar : Matrix (Fin 6) (Fin 6) ℝ
  E_lidarL : Matrix (Fin 6) (Fin 6) ℝ
  imuTimeLast : ℝ
  wheelTimeLast : ℝ
  lidarTimeLast : ℝ
  imuTimeCurrent : ℝ
  wheelTimeCurrent : ℝ
  lidarTimeCurrent : ℝ
  imu_dt : ℝ
  wheel_dt : ℝ
  lidar_dt : ℝ
  imuActivated : Bool
  wheelActivated : Bool
  lidarActivated : Bool
  imuNew : Bool
  wheelNew : Bool
  lidarNew : Bool

/-- void initialization().  The C++ code never assigns imu_dt here (it is
an uninitialized member until the first imuHandler call); its arbitrary
startup value is the parameter imu_dt0. -/
def initialization (imu_dt0 : ℝ) : AF where
  X := 0
  P := Matrix.diagonal fun _ => 0.1
  imuMeasure := 0
  wheelMeasure := 0
  lidarMeasure := 0
  lidarMeasureL := 0
  E_imu := 0
  E_wheel := 0
  E_lidar := 0
  E_lidarL := 0
  imuTimeLast := 0
  wheelTimeLast := 0
  lidarTimeLast := 0
  imuTimeCurrent := 0
  wheelTimeCurrent := 0
  lidarTimeCurrent := 0
  imu_dt := imu_dt0
  wheel_dt := 0.05
  lidar_dt := 0.1
  imuActivated := false
  wheelActivated := false
  lidarActivated := false
  imuNew := false
  wheelNew := false
  lidarNew := false

/-! ## Corrections -/

/-- The wheel observation matrix H (selects vx = X(6) and wz = X(11)). -/
def wheel_H : Matrix (Fin 2) (Fin 12) ℝ :=
  fun i j => if (i = 0 ∧ j = 6) ∨ (i = 1 ∧ j = 11) then 1 else 0

/-- Innovation covariance S = H*P*H^T + E of the wheel correction. -/
def wheel_S (P : Matrix (Fin 12) (Fin 12) ℝ)
    (E : Matrix (Fin 2) (Fin 2) ℝ) : Matrix (Fin 2) (Fin 2) ℝ :=
  wheel_H * P * wheel_Hᵀ + E

/-- void correction_wheel_stage(double dt). -/
def correction_wheel_stage (s : AF) (dt : ℝ) : AF :=
  let hx : Fin 2 → ℝ := ![s.X 6, s.X 11]
  let Y := s.wheelMeasure
  let H := wheel_H
  let S := wheel_S s.P s.E_wheel
  let K := s.P * Hᵀ * S⁻¹
  { s with X := s.X + K.mulVec (Y - hx), P := s.P - K * H * s.P }

/-- The inertial observation matrix H (identity block on rows 3..5). -/
def imu_H : Matrix (Fin 3) (Fin 12) ℝ :=
  fun i j => if (j : ℕ) = (i : ℕ) + 3 then 1 else 0

/-- void correction_imu_stage(double dt): hx = X[3:6], Y = imuMeasure[6:9],
E = orientation block of E_imu. -/
def correction_imu_stage (s : AF) (dt : ℝ) : AF :=
  let hx : Fin 3 → ℝ := fun i => s.X ⟨(i : ℕ) + 3, by omega⟩
  let Y : Fin 3 → ℝ := fun i => s.imuMeasure ⟨(i : ℕ) + 6, by omega⟩
  let H := imu_H
  let E : Matrix (Fin 3) (Fin 3) ℝ :=
    fun i j => s.E_imu ⟨(i : ℕ) + 6, by omega⟩ ⟨(j : ℕ) + 6, by omega⟩
  let S := H * s.P * Hᵀ + E
  let K := s.P * Hᵀ * S⁻¹
  { s with X := s.X + K.mulVec (Y - hx), P := s.P - K * H * s.P }

/-- The range observation matrix H (identity block on rows 6..11). -/
def lidar_H : Matrix (Fin 6) (Fin 12) ℝ :=
  fun i j => if (j : ℕ) = (i : ℕ) + 6 then 1 else 0

/-- The synthetic twist Y used by correction_lidar_stage. -/
def lidar_Y (s : AF) (dt : ℝ) : Fin 6 → ℝ :=
  indirect_lidar_measurement s.lidarMeasure s.lidarMeasureL dt

/-- The propagated measurement covariance
Q = G*E_lidar*G^T + Gl*E_lidarL*Gl^T used by correction_lidar_stage. -/
def lidar_Q (s : AF) (dt : ℝ) : Matrix (Fin 6) (Fin 6) ℝ :=
  let G := jacobian_lidar_measurement s.lidarMeasure s.lidarMeasureL dt
  let Gl := jacobian_lidar_measurementL s.lidarMeasure s.lidarMeasureL dt
  G * s.E_lidar * Gᵀ + Gl * s.E_lidarL * Glᵀ

/-- void correction_lidar_stage(double dt).  After the update the current
measurement and adaptive covariance are retained as the previous ones. -/
def correction_lidar_stage (s : AF) (dt : ℝ) : AF :=
  let hx : Fin 6 → ℝ := fun i => s.X (hi6 i)
  let Y := lidar_Y s dt
  let H := lidar_H
  let Q := lidar_Q s dt
  let S := H * s.P * Hᵀ + Q
  let K := s.P * Hᵀ * S⁻¹
  { s with
    X := s.X + K.mulVec (Y - hx)
    P := s.P - K * H * s.P
    lidarMeasureL := s.lidarMeasure
    E_lidarL := s.E_lidar }

/-! ## Sensor messages and callbacks

Orientation quaternions are modelled by the roll/pitch/yaw triple that
tf2 getRPY extracts from them; covariance arrays keep their flat layout. -/

structure ImuMsg where
  stamp : ℝ
  linear_acceleration : Fin 3 → ℝ
  angular_velocity : Fin 3 → ℝ
  rpy : Fin 3 → ℝ
  linear_acceleration_covariance : Fin 9 → ℝ
  angular_velocity_covariance : Fin 9 → ℝ
  orientation_covariance : Fin 9 → ℝ

structure WheelMsg where
  stamp : ℝ
  linear_x : ℝ
  angular_z : ℝ
  twist_covariance : Fin 36 → ℝ

structure LidarMsg where
  stamp : ℝ
  position : Fin 3 → ℝ
  rpy : Fin 3 → ℝ
  corner : ℝ
  surf : ℝ

/-- void imuHandler(...): updates times, measures, covariances; the
timestamp-derived imu_dt is computed and then overwritten by 0.01. -/
def imuHandler (imuG : ℝ) (s : AF) (m : ImuMsg) : AF :=
  let tCur := m.stamp
  let tLast := if s.imuActivated then s.imuTimeCurrent else tCur + 0.01
  let meas : Fin 9 → ℝ := fun i =>
    if h : (i : ℕ) < 3 then m.linear_acceleration ⟨i, h⟩
    else if h3 : (i : ℕ) < 6 then m.angular_velocity ⟨(i : ℕ) - 3, by omega⟩
    else m.rpy ⟨(i : ℕ) - 6, by omega⟩
  let cov : Matrix (Fin 9) (Fin 9) ℝ := fun i j =>
    if hi : (i : ℕ) < 3 then
      (if hj : (j : ℕ) < 3 then
        m.linear_acceleration_covariance ⟨(i : ℕ) * 3 + (j : ℕ), by omega⟩
       else s.E_imu i j)
    else if hi6 : (i : ℕ) < 6 then
      (if hj : 3 ≤ (j : ℕ) ∧ (j : ℕ) < 6 then
        m.angular_velocity_covariance ⟨((i : ℕ) - 3) * 3 + ((j : ℕ) - 3), by omega⟩
       else s.E_imu i j)
    else
      (if hj : 6 ≤ (j : ℕ) then
        imuG * m.orientation_covariance ⟨((i : ℕ) - 6) * 3 + ((j : ℕ) - 6), by omega⟩
       else s.E_imu i j)
  let _dt_stamp := tCur - tLast
  { s with
    imuTimeLast := tLast
    imuTimeCurrent := tCur
    imuMeasure := meas
    E_imu := cov
    imu_dt := 0.01
    imuActivated := true
    imuNew := true }

/-- void wheelOdometryHandler(...): stores (vx, wz), a diagonal update of
E_wheel, and wheel_dt computed from stamps then overwritten by 0.05. -/
def wheelOdometryHandler (wheelG : ℝ) (s : AF) (m : WheelMsg) : AF :=
  let tCur := m.stamp
  let tLast := if s.wheelActivated then s.wheelTimeCurrent else tCur + 0.05
  let cov : Matrix (Fin 2) (Fin 2) ℝ := fun i j =>
    if i = 0 ∧ j = 0 then wheelG * m.twist_covariance 0
    else if i = 1 ∧ j = 1 then 100 * m.twist_covariance 35
    else s.E_wheel i j
  let _dt_stamp := tCur - tLast
  { s with
    wheelTimeLast := tLast
    wheelTimeCurrent := tCur
    wheelMeasure := ![1.0 * m.linear_x, m.angular_z]
    E_wheel := cov
    wheel_dt := 0.05
    wheelActivated := true
    wheelNew := true }

/-- void laserOdometryHandler(...): stores the absolute pose, recomputes
E_lidar from the feature counts, and lidar_dt computed from stamps then
overwritten by 0.1. -/
def laserOdometryHandler (lidarG : ℝ) (s : AF) (m : LidarMsg) : AF :=
  let tCur := m.stamp
  let tLast := if s.lidarActivated then s.lidarTimeCurrent else tCur + 0.1
  let meas : Fin 6 → ℝ := fun i =>
    if h : (i : ℕ) < 3 then m.position ⟨i, h⟩ else m.rpy ⟨(i : ℕ) - 3, by omega⟩
  let _dt_stamp := tCur - tLast
  { s with
    lidarTimeLast := tLast
    lidarTimeCurrent := tCur
    lidarMeasure := meas
    E_lidar := adaptive_covariance lidarG m.corner m.surf
    lidar_dt := 0.1
    lidarActivated := true
    lidarNew := true }

/-! ## Scheduler -/

/-- One iteration of run(): always predict with the wall-clock dt, then
each enabled correction whose data is fresh, with the stored sensor dt. -/
def run_tick (eImu eWheel eLidar : Bool) (s : AF) (dt_now : ℝ) : AF :=
  let s0 := { s with
    X := (prediction_stage s.X s.P dt_now).1
    P := (prediction_stage s.X s.P dt_now).2 }
  let s1 := if eImu && s0.imuActivated && s0.imuNew then
      { correction_imu_stage s0 s0.imu_dt with imuNew := false }
    else s0
  let s2 := if eWheel && s1.wheelActivated && s1.wheelNew then
      { correction_wheel_stage s1 s1.wheel_dt with wheelNew := false }
    else s1
  if eLidar && s2.lidarActivated && s2.lidarNew then
    { correction_lidar_stage s2 s2.lidar_dt with lidarNew := false }
  else s2

/-- The events the node reacts to: one callback per sensor message plus
one scheduler iteration. -/
inductive Event where
  | imu (m : ImuMsg)
  | wheel (m : WheelMsg)
  | lidar (m : LidarMsg)
  | tick (dt_now : ℝ)

/-- Dispatch of a single event. -/
def applyEvent (imuG wheelG lidarG : ℝ) (eImu eWheel eLidar : Bool)
    (s : AF) (e : Event) : AF :=
  match e with
  | Event.imu m => imuHandler imuG s m
  | Event.wheel m => wheelOdometryHandler wheelG s m
  | Event.lidar m => laserOdometryHandler lidarG s m
  | Event.tick dt_now => run_tick eImu eWheel eLidar s dt_now

/-- The node state after an arbitrary interleaving of callbacks and
scheduler iterations, starting from initialization(). -/
def runEvents (imuG wheelG lidarG : ℝ) (eImu eWheel eLidar : Bool)
    (imu_dt0 : ℝ) (es : List Event) : AF :=
  es.foldl (applyEvent imuG wheelG lidarG eImu eWheel eLidar)
    (initialization imu_dt0)

/-! ## Spec-side definitions (written from the specification text, to be
compared with the definitions transcribed from the source) -/

/-- Spec 4.1: A is block-diagonal with the rotation matrix
Rz(yaw)*Ry(pitch)*Rx(roll) in the position block and the Euler-rate
Jacobian in the angle block. -/
def A_spec (roll pitch yaw : ℝ) : Matrix (Fin 6) (Fin 6) ℝ :=
  blockDiag6 (Rz yaw * Ry pitch * Rx roll) (eulerRateJ roll pitch)

/-- Degrees to radians. -/
def deg (d : ℝ) : ℝ := d * π / 180

/-! ## Theorems -/

/-- C1: for every 12-dim state x and every dt, the prediction model
returns a state whose pose block (components 0-5) equals
pose + A(angles)*velocity*dt, where A is block-diagonal with the rotation
matrix Rz(yaw)*Ry(pitch)*Rx(roll) in the position block and the
Euler-rate Jacobian in the angle block, and whose velocity block
(components 6-11) equals the input velocity block unchanged. -/
theorem c1_prediction_model_blocks (x : Fin 12 → ℝ) (dt : ℝ) :
    (∀ i : Fin 6, f_prediction_model x dt (lo6 i)
      = x (lo6 i) + (A_spec (x 3) (x 4) (x 5)).mulVec (fun j => x (hi6 j)) i * dt)
    ∧ (∀ i : Fin 6, f_prediction_model x dt (hi6 i) = x (hi6 i)) := by
  constructor
  · intro i
    have h : ((lo6 i : Fin 12) : ℕ) < 6 := i.isLt
    have hfin : (⟨((lo6 i : Fin 12) : ℕ), h⟩ : Fin 6) = i := rfl
    simp only [f_prediction_model, dif_pos h, hfin]
    simp [Matrix.mulVec, dotProduct, A_spec, predictionA]
  · intro i
    have h : ¬ ((hi6 i : Fin 12) : ℕ) < 6 := by simp [hi6]
    simp [f_prediction_model, h]

/-- C3: for every pose u with invertible Euler-rate Jacobian and every
dt > 0, the indirect lidar measurement of two identical poses is the
all-zero twist. -/
theorem c3_indirect_measurement_zero (u : Fin 6 → ℝ) (dt : ℝ)
    (hJ : IsUnit (eulerRateJ (u 3) (u 4)).det) (hdt : 0 < dt) :
    indirect_lidar_measurement u u dt = 0 := by
  have h0 : wrapDiff 0 = 0 := by
    simp [wrapDiff, atan2]
  funext i
  simp [indirect_lidar_measurement, sub_self, h0]

/-- Witness for C3 at the origin pose and dt = 1: the Euler-rate Jacobian
there is invertible, and the derived twist is zero. -/
theorem c3_witness :
    IsUnit (eulerRateJ ((0 : Fin 6 → ℝ) 3) ((0 : Fin 6 → ℝ) 4)).det
    ∧ (0 : ℝ) < 1
    ∧ indirect_lidar_measurement 0 0 1 = 0 := by
  have hdet : (eulerRateJ ((0 : Fin 6 → ℝ) 3) ((0 : Fin 6 → ℝ) 4)).det = 1 := by
    simp [eulerRateJ, Matrix.det_fin_three]
  have hJ : IsUnit (eulerRateJ ((0 : Fin 6 → ℝ) 3) ((0 : Fin 6 → ℝ) 4)).det := by
    rw [hdet]; exact isUnit_one
  exact ⟨hJ, one_pos, c3_indirect_measurement_zero 0 1 hJ one_pos⟩

/-- C8: the wrapped angle difference atan2(sin(d), cos(d)) always lands in
(-pi, pi] and differs from the raw difference by an integer multiple of
2*pi; in particular a raw difference of 358 degrees (359 - 1) is mapped
to exactly -2 degrees, not 358. -/
theorem c8_wrapped_angle_difference :
    (∀ d : ℝ, wrapDiff d ∈ Set.Ioc (-π) π
      ∧ ∃ k : ℤ, wrapDiff d - d = k * (2 * π))
    ∧ wrapDiff (deg 359 - deg 1) = -(deg 2) := by
  constructor
  · intro d
    refine ⟨Complex.arg_mem_Ioc _, ⟨⌊(π - d) / (2 * π)⌋, ?_⟩⟩
    have h := Complex.arg_cos_add_sin_mul_I_sub d
    have hw : wrapDiff d - d = 2 * π * ⌊(π - d) / (2 * π)⌋ := by
      rw [wrapDiff, atan2, Complex.ofReal_cos, Complex.ofReal_sin]; exact h
    calc wrapDiff d - d = 2 * π * ⌊(π - d) / (2 * π)⌋ := hw
      _ = (⌊(π - d) / (2 * π)⌋ : ℝ) * (2 * π) := by ring
  · have hsum : deg 359 - deg 1 = -(deg 2) + 2 * π := by unfold deg; ring
    have hmem : -(deg 2) ∈ Set.Ioc (-π) π := by
      constructor
      · unfold deg; nlinarith [Real.pi_pos]
      · unfold deg; nlinarith [Real.pi_pos]
    calc wrapDiff (deg 359 - deg 1)
        = Complex.arg (Real.cos (-(deg 2) + 2 * π) + Real.sin (-(deg 2) + 2 * π) * Complex.I) := by
          rw [wrapDiff, atan2, hsum]
      _ = Complex.arg (Real.cos (-(deg 2)) + Real.sin (-(deg 2)) * Complex.I) := by
          rw [Real.cos_add_two_pi, Real.sin_add_two_pi]
      _ = -(deg 2) := by
          rw [Complex.ofReal_cos, Complex.ofReal_sin]
          exact Complex.arg_cos_add_sin_mul_I hmem

/-! ## Adaptive covariance (C2) -/

/-- Spec 4.5: the per-axis gain constants, in axis order x,y,z,roll,pitch,yaw. -/
def axisGain : Fin 6 → ℝ := fun i =>
  if i = 0 then Gx
  else if i = 1 then Gy
  else if i = 2 then Gz
  else if i = 3 then Gphi
  else if i = 4 then Gtheta
  else Gpsi

/-- Spec 4.5: scale = (N - min(f, N))/N + floor, with the corner pair for
axes x, y, yaw (indices 0, 1, 5) and the surface pair for z, roll, pitch
(indices 2, 3, 4). -/
def axisScale (fCorner fSurf : ℝ) : Fin 6 → ℝ := fun i =>
  if i = 0 ∨ i = 1 ∨ i = 5 then (nCorner - min fCorner nCorner) / nCorner + l_min
  else (nSurf - min fSurf nSurf) / nSurf + l_min

/-- The property claimed of adaptive_covariance: diagonal shape, the
scale-times-gain formula for each diagonal entry, the value floor*gain at
saturated feature counts, the value (1+floor)*gain at zero features, and
monotone non-increase in the feature counts. -/
def adaptiveCovClaim (lidarG fCorner fSurf : ℝ) : Prop :=
  (∀ i j, i ≠ j → adaptive_covariance lidarG fCorner fSurf i j = 0)
  ∧ (∀ i, adaptive_covariance lidarG fCorner fSurf i i
      = axisScale fCorner fSurf i * axisGain i * lidarG)
  ∧ (∀ i, adaptive_covariance lidarG nCorner nSurf i i = l_min * (axisGain i * lidarG))
  ∧ (∀ i, adaptive_covariance lidarG 0 0 i i = (1 + l_min) * (axisGain i * lidarG))
  ∧ (∀ fC fS : ℝ, fCorner ≤ fC → fSurf ≤ fS → ∀ i,
      adaptive_covariance lidarG fC fS i i ≤ adaptive_covariance lidarG fCorner fSurf i i)

lemma adaptive_covariance_offdiag (lidarG fC fS : ℝ) {i j : Fin 6} (h : i ≠ j) :
    adaptive_covariance lidarG fC fS i j = 0 := by
  simp [adaptive_covariance, Matrix.diagonal_apply_ne _ h]

lemma adaptive_covariance_diag (lidarG fC fS : ℝ) (i : Fin 6) :
    adaptive_covariance lidarG fC fS i i = axisScale fC fS i * axisGain i * lidarG := by
  fin_cases i <;>
    simp +decide [adaptive_covariance, axisScale, axisGain,
      Matrix.diagonal_apply_eq] <;>
    norm_num <;> ring

lemma axisGain_nonneg (i : Fin 6) : 0 ≤ axisGain i := by
  fin_cases i <;> simp +decide [axisGain] <;>
    norm_num [Gx, Gy, Gz, Gphi, Gtheta, Gpsi]

lemma axisScale_mono {fC fS fC' fS' : ℝ} (hC : fC ≤ fC') (hS : fS ≤ fS') (i : Fin 6) :
    axisScale fC' fS' i ≤ axisScale fC fS i := by
  unfold axisScale
  have hcorner : 0 < nCorner := by norm_num [nCorner]
  have hsurf : 0 < nSurf := by norm_num [nSurf]
  split
  · exact add_le_add_right
      ((div_le_div_right hcorner).mpr
        (sub_le_sub_left (min_le_min hC le_rfl) nCorner)) l_min
  · exact add_le_add_right
      ((div_le_div_right hsurf).mpr
        (sub_le_sub_left (min_le_min hS le_rfl) nSurf)) l_min

/-- C2: for nonnegative feature counts (and nonnegative global range gain)
the adaptive covariance is diagonal with entries
scale * per-axis gain * global gain, where the scale uses the corner pair
on axes x, y, yaw and the surface pair on z, roll, pitch; it attains
floor*gain at saturated counts, (1+floor)*gain at zero counts, and is
monotonically non-increasing in the feature counts. -/
theorem c2_adaptive_covariance (lidarG fCorner fSurf : ℝ)
    (hG : 0 ≤ lidarG) (hC : 0 ≤ fCorner) (hS : 0 ≤ fSurf) :
    adaptiveCovClaim lidarG fCorner fSurf := by
  refine ⟨fun i j h => adaptive_covariance_offdiag lidarG fCorner fSurf h,
    fun i => adaptive_covariance_diag lidarG fCorner fSurf i, ?_, ?_, ?_⟩
  · intro i
    rw [adaptive_covariance_diag]
    have : axisScale nCorner nSurf i = l_min := by
      unfold axisScale; split <;> simp
    rw [this]; ring
  · intro i
    rw [adaptive_covariance_diag]
    have : axisScale 0 0 i = 1 + l_min := by
      unfold axisScale
      have h1 : min (0 : ℝ) nCorner = 0 := min_eq_left (by norm_num [nCorner])
      have h2 : min (0 : ℝ) nSurf = 0 := min_eq_left (by norm_num [nSurf])
      split <;>
        simp [h1, h2, div_self, nCorner, nSurf] <;> norm_num
    rw [this]; ring
  · intro fC fS hC' hS' i
    rw [adaptive_covariance_diag, adaptive_covariance_diag]
    have hgain : 0 ≤ axisGain i * lidarG := mul_nonneg (axisGain_nonneg i) hG
    calc axisScale fC fS i * axisGain i * lidarG
        = axisScale fC fS i * (axisGain i * lidarG) := by ring
      _ ≤ axisScale fCorner fSurf i * (axisGain i * lidarG) :=
          mul_le_mul_of_nonneg_right (axisScale_mono hC' hS' i) hgain
      _ = axisScale fCorner fSurf i * axisGain i * lidarG := by ring

/-- Witness for C2 at the default gain 1000 and feature counts (250, 0). -/
theorem c2_witness :
    (0 : ℝ) ≤ 1000 ∧ (0 : ℝ) ≤ 250 ∧ (0 : ℝ) ≤ 0
    ∧ adaptiveCovClaim 1000 250 0 :=
  ⟨by norm_num, by norm_num, le_refl 0,
    c2_adaptive_covariance 1000 250 0 (by norm_num) (by norm_num) le_rfl⟩

/-! ## Prediction with dt = 0 (C5) -/

lemma f_prediction_model_dt_zero (x : Fin 12 → ℝ) :
    f_prediction_model x 0 = x := by
  funext k
  by_cases h : (k : ℕ) < 6 <;> simp [f_prediction_model, h]

/-- The state Jacobian actually produced at dt = 0: diagonal, with
sin(1e-4)/1e-4 on the three angle rows instead of 1 (the sin-wrap of the
finite-difference engine applied to the exact increment 1e-4). -/
def predF0 : Matrix (Fin 12) (Fin 12) ℝ :=
  Matrix.diagonal fun i =>
    if (i : ℕ) = 3 ∨ (i : ℕ) = 4 ∨ (i : ℕ) = 5 then Real.sin 0.0001 / 0.0001 else 1

lemma jacobian_state_dt_zero (x : Fin 12 → ℝ) :
    jacobian_state x 0 = predF0 := by
  funext i j
  simp only [jacobian_state, f_prediction_model_dt_zero]
  have hupd : Function.update x j (x j + 0.0001) i - x i
      = if i = j then 0.0001 else 0 := by
    rcases eq_or_ne i j with rfl | hne
    · simp
    · simp [Function.update_noteq hne, hne]
  rw [hupd]
  rcases eq_or_ne i j with rfl | hne
  · by_cases hang : (i : ℕ) = 3 ∨ (i : ℕ) = 4 ∨ (i : ℕ) = 5 <;>
      simp [hang, predF0, Matrix.diagonal_apply_eq] <;> norm_num
  · simp [hne, predF0, Matrix.diagonal_apply_ne _ hne]

/-- C5 (amended): prediction with dt = 0 leaves X unchanged, and the
covariance becomes F0*P*F0^T + E_pred where F0 = jacobian_state(X, 0) is
diagonal with entries 1 except sin(1e-4)/1e-4 on the angle rows: the
covariance is NOT simply P + E_pred. -/
theorem c5_prediction_dt_zero_amended (X : Fin 12 → ℝ)
    (P : Matrix (Fin 12) (Fin 12) ℝ) :
    prediction_stage X P 0 = (X, predF0 * P * predF0ᵀ + E_pred) := by
  unfold prediction_stage
  rw [jacobian_state_dt_zero, f_prediction_model_dt_zero]

/-- C5 counterexample: at the initial state X = 0, P = 0.1*I, prediction
with dt = 0 does not return covariance P + E_pred (entry (3,3) is
0.1*(sin(1e-4)/1e-4)^2 < 0.1). -/
theorem c5_counterexample :
    (prediction_stage 0 (Matrix.diagonal fun _ => 0.1) 0).2
      ≠ Matrix.diagonal (fun _ => (0.1 : ℝ)) + E_pred := by
  have hL : (prediction_stage 0 (Matrix.diagonal fun _ => (0.1 : ℝ)) 0).2 3 3
      = (Real.sin 0.0001 / 0.0001) * 0.1 * (Real.sin 0.0001 / 0.0001) := by
    show ((jacobian_state 0 0 * Matrix.diagonal (fun _ : Fin 12 => (0.1 : ℝ))
        * (jacobian_state 0 0)ᵀ + E_pred) : Matrix (Fin 12) (Fin 12) ℝ) 3 3 = _
    rw [jacobian_state_dt_zero]
    simp +decide [predF0, Matrix.diagonal_transpose, Matrix.diagonal_mul_diagonal,
      Matrix.add_apply, Matrix.diagonal_apply_eq, E_pred]
  have hR : ((Matrix.diagonal (fun _ : Fin 12 => (0.1 : ℝ)) + E_pred)
      : Matrix (Fin 12) (Fin 12) ℝ) 3 3 = 0.1 := by
    simp +decide [Matrix.add_apply, Matrix.diagonal_apply_eq, E_pred]
  intro hEq
  have h33 : (Real.sin 0.0001 / 0.0001) * 0.1 * (Real.sin 0.0001 / 0.0001)
      = (0.1 : ℝ) := by
    rw [← hL, hEq, hR]
  have hlt : Real.sin 0.0001 < 0.0001 := Real.sin_lt (by norm_num)
  have hpos : 0 < Real.sin 0.0001 :=
    Real.sin_pos_of_pos_of_lt_pi (by norm_num)
      (lt_trans (by norm_num) Real.pi_gt_three)
  have : Real.sin 0.0001 * Real.sin 0.0001 = 0.0001 * 0.0001 := by
    field_simp at h33
    nlinarith [h33]
  nlinarith [hlt, hpos]

/-! ## Correction fixed points (C6) -/

/-- C6: a wheel measurement exactly equal to (X(6), X(11)) = H*X leaves
the state vector unchanged, and an inertial roll/pitch/yaw measurement
exactly equal to X[3:6] leaves the state vector unchanged. -/
theorem c6_correction_fixed_points (s : AF) (dt dt' : ℝ)
    (hw : s.wheelMeasure = ![s.X 6, s.X 11])
    (hrpy : (fun i : Fin 3 => s.imuMeasure ⟨(i : ℕ) + 6, by omega⟩)
      = fun i : Fin 3 => s.X ⟨(i : ℕ) + 3, by omega⟩) :
    (correction_wheel_stage s dt).X = s.X
    ∧ (correction_imu_stage s dt').X = s.X := by
  constructor
  · show s.X + _ = s.X
    rw [hw]
    simp [sub_self, Matrix.mulVec_zero]
  · show s.X + _ = s.X
    rw [hrpy]
    simp [sub_self, Matrix.mulVec_zero]

/-- Witness for C6 at the freshly initialized node (all states and
measures zero). -/
theorem c6_witness :
    ((initialization 0).wheelMeasure
      = ![(initialization 0).X 6, (initialization 0).X 11])
    ∧ ((fun i : Fin 3 => (initialization 0).imuMeasure ⟨(i : ℕ) + 6, by omega⟩)
      = fun i : Fin 3 => (initialization 0).X ⟨(i : ℕ) + 3, by omega⟩)
    ∧ (correction_wheel_stage (initialization 0) 0.05).X = (initialization 0).X
    ∧ (correction_imu_stage (initialization 0) 0.01).X = (initialization 0).X := by
  have hw : (initialization 0).wheelMeasure
      = ![(initialization 0).X 6, (initialization 0).X 11] := by
    funext i; fin_cases i <;> rfl
  have hrpy : (fun i : Fin 3 => (initialization 0).imuMeasure ⟨(i : ℕ) + 6, by omega⟩)
      = fun i : Fin 3 => (initialization 0).X ⟨(i : ℕ) + 3, by omega⟩ := rfl
  exact ⟨hw, hrpy,
    (c6_correction_fixed_points (initialization 0) 0.05 0.01 hw hrpy).1,
    (c6_correction_fixed_points (initialization 0) 0.05 0.01 hw hrpy).2⟩

/-! ## Wheel covariance ingest (C7) -/

/-- What the wheel handler actually stores in E_wheel, plus preservation
of off-diagonal entries (so E_wheel stays diagonal from its zero
initialization). -/
def wheelCovClaim (wheelG : ℝ) (s : AF) (m : WheelMsg) : Prop :=
  (wheelOdometryHandler wheelG s m).E_wheel 0 0 = wheelG * m.twist_covariance 0
  ∧ (wheelOdometryHandler wheelG s m).E_wheel 1 1 = 100 * m.twist_covariance 35
  ∧ (∀ i j, i ≠ j →
      (wheelOdometryHandler wheelG s m).E_wheel i j = s.E_wheel i j)

/-- A wheel odometry message whose twist covariance entries are all 1. -/
def wheelMsg0 : WheelMsg :=
  { stamp := 0, linear_x := 0, angular_z := 0, twist_covariance := fun _ => 1 }

lemma wheel_handler_offdiag (wheelG : ℝ) (s : AF) (m : WheelMsg)
    {i j : Fin 2} (hne : i ≠ j) :
    (wheelOdometryHandler wheelG s m).E_wheel i j = s.E_wheel i j := by
  fin_cases i <;> fin_cases j <;> simp_all [wheelOdometryHandler]

lemma run_tick_E_wheel (a b c : Bool) (s : AF) (dt : ℝ) :
    (run_tick a b c s dt).E_wheel = s.E_wheel := by
  simp only [run_tick]; split_ifs <;> rfl

lemma runEvents_E_wheel_offdiag (imuG wheelG lidarG : ℝ) (a b c : Bool)
    (d0 : ℝ) (es : List Event) {i j : Fin 2} (hne : i ≠ j) :
    (runEvents imuG wheelG lidarG a b c d0 es).E_wheel i j = 0 := by
  have hbase : (initialization d0).E_wheel i j = 0 := rfl
  unfold runEvents
  generalize initialization d0 = s0 at hbase
  induction es generalizing s0 with
  | nil => exact hbase
  | cons e es ih =>
    refine ih _ ?_
    cases e with
    | imu m => exact hbase
    | wheel m => rw [applyEvent, wheel_handler_offdiag wheelG s0 m hne]; exact hbase
    | lidar m => exact hbase
    | tick dt => rw [applyEvent, run_tick_E_wheel]; exact hbase

/-- C7 (amended): the stored 2x2 wheel covariance is diagonal (its
off-diagonal entries are zero after any event sequence from startup); the
forward-velocity entry is the message covariance entry 0 scaled by the
wheel gain, but the yaw-rate entry is the message covariance entry 35
scaled by the fixed constant 100, not by the wheel gain. -/
theorem c7_wheel_covariance_amended :
    (∀ (wheelG : ℝ) (s : AF) (m : WheelMsg), wheelCovClaim wheelG s m)
    ∧ (∀ (imuG wheelG lidarG : ℝ) (a b c : Bool) (d0 : ℝ) (es : List Event)
        (i j : Fin 2), i ≠ j →
        (runEvents imuG wheelG lidarG a b c d0 es).E_wheel i j = 0) := by
  constructor
  · intro wheelG s m
    exact ⟨by simp [wheelOdometryHandler], by simp [wheelOdometryHandler],
      fun i j hne => wheel_handler_offdiag wheelG s m hne⟩
  · intro imuG wheelG lidarG a b c d0 es i j hne
    exact runEvents_E_wheel_offdiag imuG wheelG lidarG a b c d0 es hne

/-- Witness for C7 (amended) after one wheel message with unit covariance
entries and the default gains. -/
theorem c7_witness :
    wheelCovClaim 0.05 (initialization 0) wheelMsg0
    ∧ ((0 : Fin 2) ≠ 1
      ∧ (runEvents 0.1 0.05 1000 true true true 0
          [Event.wheel wheelMsg0]).E_wheel 0 1 = 0) :=
  ⟨c7_wheel_covariance_amended.1 0.05 (initialization 0) wheelMsg0,
    by decide,
    c7_wheel_covariance_amended.2 0.1 0.05 1000 true true true 0
      [Event.wheel wheelMsg0] 0 1 (by decide)⟩

/-- C7 counterexample: with the default wheel gain 0.05 and a message
whose yaw-rate covariance entry is 1, the stored (1,1) entry is 100, not
wheelG * 1 = 0.05: the yaw-rate entry is not scaled by the wheel gain. -/
theorem c7_counterexample :
    (wheelOdometryHandler 0.05 (initialization 0) wheelMsg0).E_wheel 1 1
      ≠ 0.05 * wheelMsg0.twist_covariance 35 := by
  have h : (wheelOdometryHandler 0.05 (initialization 0) wheelMsg0).E_wheel 1 1
      = 100 := by simp [wheelOdometryHandler, wheelMsg0]
  rw [h]
  norm_num [wheelMsg0]

/-! ## Singular innovation covariance (C4)

The correction stages contain no guard, no exception handler and no
diagnostic: they always form K = P*H^T*S.inverse() and always apply the
update.  The theorem below exhibits a concrete reachable-in-principle
input (P = 0, E_wheel = 0) at which S is singular, so Eigen's inverse()
is applied to a non-invertible matrix. -/

/-- C4: at P = 0 and E_wheel = 0 the wheel innovation covariance
S = H*P*H^T + E is the zero matrix, whose determinant is zero, so it is
singular; the code inverts it unconditionally (no catch, no skip and no
diagnostic exists in correction_wheel_stage / correction_lidar_stage). -/
theorem c4_singular_innovation_covariance :
    wheel_S 0 0 = 0 ∧ (wheel_S 0 0).det = 0 := by
  have h : wheel_S 0 0 = 0 := by
    simp [wheel_S]
  exact ⟨h, by rw [h, Matrix.det_zero ⟨0⟩]⟩

/-! ## Hard-coded correction time steps (C9) -/

/-- The dt values every correction is called with: whenever the inertial
stream has been activated its stored dt is 0.01, and the wheel and range
dts are 0.05 and 0.1 from initialization onwards. -/
def dtInvariant (s : AF) : Prop :=
  (s.imuActivated = true → s.imu_dt = 0.01)
  ∧ s.wheel_dt = 0.05 ∧ s.lidar_dt = 0.1

lemma correction_imu_stage_dt_fields (s : AF) (dt : ℝ) :
    (correction_imu_stage s dt).imu_dt = s.imu_dt
    ∧ (correction_imu_stage s dt).wheel_dt = s.wheel_dt
    ∧ (correction_imu_stage s dt).lidar_dt = s.lidar_dt
    ∧ (correction_imu_stage s dt).imuActivated = s.imuActivated :=
  ⟨rfl, rfl, rfl, rfl⟩

lemma correction_wheel_stage_dt_fields (s : AF) (dt : ℝ) :
    (correction_wheel_stage s dt).imu_dt = s.imu_dt
    ∧ (correction_wheel_stage s dt).wheel_dt = s.wheel_dt
    ∧ (correction_wheel_stage s dt).lidar_dt = s.lidar_dt
    ∧ (correction_wheel_stage s dt).imuActivated = s.imuActivated :=
  ⟨rfl, rfl, rfl, rfl⟩

lemma correction_lidar_stage_dt_fields (s : AF) (dt : ℝ) :
    (correction_lidar_stage s dt).imu_dt = s.imu_dt
    ∧ (correction_lidar_stage s dt).wheel_dt = s.wheel_dt
    ∧ (correction_lidar_stage s dt).lidar_dt = s.lidar_dt
    ∧ (correction_lidar_stage s dt).imuActivated = s.imuActivated :=
  ⟨rfl, rfl, rfl, rfl⟩

lemma run_tick_dt_fields (a b c : Bool) (s : AF) (dt : ℝ) :
    (run_tick a b c s dt).imu_dt = s.imu_dt
    ∧ (run_tick a b c s dt).wheel_dt = s.wheel_dt
    ∧ (run_tick a b c s dt).lidar_dt = s.lidar_dt
    ∧ (run_tick a b c s dt).imuActivated = s.imuActivated := by
  refine ⟨?_, ?_, ?_, ?_⟩ <;> (simp only [run_tick]; split_ifs <;> rfl)

lemma applyEvent_dtInvariant (imuG wheelG lidarG : ℝ) (a b c : Bool)
    (s : AF) (e : Event) (h : dtInvariant s) :
    dtInvariant (applyEvent imuG wheelG lidarG a b c s e) := by
  cases e with
  | imu m => exact ⟨fun _ => rfl, h.2.1, h.2.2⟩
  | wheel m => exact ⟨fun hb => h.1 hb, rfl, h.2.2⟩
  | lidar m => exact ⟨fun hb => h.1 hb, h.2.1, rfl⟩
  | tick dt =>
    obtain ⟨h1, h2, h3, h4⟩ := run_tick_dt_fields a b c s dt
    exact ⟨fun hb => h1 ▸ h.1 (h4 ▸ hb), h2 ▸ h.2.1, h3 ▸ h.2.2⟩

/-- C9: after any sequence of sensor callbacks and scheduler iterations,
starting from any uninitialized imu_dt value, the stored time steps that
run() hands to the corrections are the constants 0.01 (inertial, once its
handler has run and therefore whenever its correction can fire), 0.05
(wheel) and 0.1 (range): the timestamp-derived differences are always
overwritten by these constants. -/
theorem c9_hardcoded_correction_dt (imuG wheelG lidarG : ℝ)
    (eImu eWheel eLidar : Bool) (imu_dt0 : ℝ) (es : List Event) :
    dtInvariant (runEvents imuG wheelG lidarG eImu eWheel eLidar imu_dt0 es) := by
  have hbase : dtInvariant (initialization imu_dt0) := by
    refine ⟨fun hb => ?_, rfl, rfl⟩
    simp [initialization] at hb
  unfold runEvents
  generalize initialization imu_dt0 = s0 at hbase
  induction es generalizing s0 with
  | nil => exact hbase
  | cons e es ih =>
    exact ih _ (applyEvent_dtInvariant imuG wheelG lidarG eImu eWheel eLidar s0 e hbase)

/-- Witness for C9: after a single inertial message the inertial stream is
active and all three stored dts equal their hard-coded constants. -/
theorem c9_witness :
    (runEvents 0.1 0.05 1000 true true true 0
        [Event.imu (ImuMsg.mk 0 0 0 0 0 0 0)]).imuActivated = true
    ∧ (runEvents 0.1 0.05 1000 true true true 0
        [Event.imu (ImuMsg.mk 0 0 0 0 0 0 0)]).imu_dt = 0.01
    ∧ (runEvents 0.1 0.05 1000 true true true 0
        [Event.imu (ImuMsg.mk 0 0 0 0 0 0 0)]).wheel_dt = 0.05
    ∧ (runEvents 0.1 0.05 1000 true true true 0
        [Event.imu (ImuMsg.mk 0 0 0 0 0 0 0)]).lidar_dt = 0.1 := by
  have h := c9_hardcoded_correction_dt 0.1 0.05 1000 true true true 0
    [Event.imu (ImuMsg.mk 0 0 0 0 0 0 0)]
  exact ⟨rfl, h.1 rfl, h.2.1, h.2.2⟩

/-! ## Retained previous range pose and covariance (C10) -/

/-- The retention behaviour claimed of the range pipeline: the previous
pose and its adaptive covariance start at zero, the first correction
therefore derives its twist from the difference to the origin with zero
previous-covariance contribution, and every range correction replaces the
retained pair with the current scan's values. -/
def lidarRetentionClaim : Prop :=
  (∀ d0 : ℝ, (initialization d0).lidarMeasureL = 0
    ∧ (initialization d0).E_lidarL = 0)
  ∧ (∀ s dt, (correction_lidar_stage s dt).lidarMeasureL = s.lidarMeasure
    ∧ (correction_lidar_stage s dt).E_lidarL = s.E_lidar)
  ∧ (∀ s dt, s.lidarMeasureL = 0 → s.E_lidarL = 0 →
      lidar_Y s dt = indirect_lidar_measurement s.lidarMeasure 0 dt
      ∧ lidar_Q s dt
        = jacobian_lidar_measurement s.lidarMeasure 0 dt * s.E_lidar
          * (jacobian_lidar_measurement s.lidarMeasure 0 dt)ᵀ)

/-- C10: at construction the retained previous range pose is the zero
6-vector and its retained adaptive covariance the zero matrix; a range
correction from that state derives its twist from the difference between
the current lidar pose and the origin with no previous-covariance
contribution; and each range correction replaces the retained pose and
covariance by the current scan's values. -/
theorem c10_lidar_retention : lidarRetentionClaim := by
  refine ⟨fun d0 => ⟨rfl, rfl⟩, fun s dt => ⟨rfl, rfl⟩, fun s dt h1 h2 => ⟨?_, ?_⟩⟩
  · rw [lidar_Y, h1]
  · rw [lidar_Q, h1, h2]
    simp [Matrix.mul_zero, Matrix.zero_mul]

/-- Witness for C10: immediately after the first range message (pose all
ones, feature counts 100 and 1000), the retained previous pose and
covariance are still zero, and the correction quantities take the claimed
origin-difference form. -/
theorem c10_witness :
    (laserOdometryHandler 1000 (initialization 0)
        (LidarMsg.mk 0 1 1 100 1000)).lidarMeasureL = 0
    ∧ (laserOdometryHandler 1000 (initialization 0)
        (LidarMsg.mk 0 1 1 100 1000)).E_lidarL = 0
    ∧ lidar_Y (laserOdometryHandler 1000 (initialization 0)
        (LidarMsg.mk 0 1 1 100 1000)) 0.1
      = indirect_lidar_measurement
          (laserOdometryHandler 1000 (initialization 0)
            (LidarMsg.mk 0 1 1 100 1000)).lidarMeasure 0 0.1
    ∧ lidar_Q (laserOdometryHandler 1000 (initialization 0)
        (LidarMsg.mk 0 1 1 100 1000)) 0.1
      = jacobian_lidar_measurement
            (laserOdometryHandler 1000 (initialization 0)
              (LidarMsg.mk 0 1 1 100 1000)).lidarMeasure 0 0.1
          * (laserOdometryHandler 1000 (initialization 0)
              (LidarMsg.mk 0 1 1 100 1000)).E_lidar
          * (jacobian_lidar_measurement
              (laserOdometryHandler 1000 (initialization 0)
                (LidarMsg.mk 0 1 1 100 1000)).lidarMeasure 0 0.1)ᵀ := by
  have h := c10_lidar_retention.2.2
    (laserOdometryHandler 1000 (initialization 0) (LidarMsg.mk 0 1 1 100 1000))
    0.1 rfl rfl
  exact ⟨rfl, rfl, h.1, h.2⟩

end AdaptiveFilter
